import Mathlib

/-!
Shallow embedding of `src/python/sctools/dimensionality.py` (class
`DimensionalityReduction`).  Numeric matrices are lists of rows over `ℚ`;
the external decomposition routine `sc.tl.pca` is an abstract delegate
parameter returning either a result record or an error, mirroring the fact
that the repository delegates all numerical work.  The `AnnData` record keeps
exactly the slots the module reads or writes: the data matrix `X`, the shape
fields, the optional per-gene `highly_variable` boolean column, and the three
result slots `obsm['X_pca']`, `varm['PCs']`, `uns['pca']`.
-/

/-- The `uns['pca']` dictionary: the module only ever reads its
`variance_ratio` entry, which may be absent. -/
structure PCAUns where
  variance_ratio : Option (List ℚ)
deriving DecidableEq

/-- The annotated dataset handle (`anndata.AnnData`), restricted to the slots
used by `dimensionality.py`. -/
structure AnnData where
  X : List (List ℚ)
  n_obs : Nat
  n_vars : Nat
  highly_variable : Option (List Bool)
  obsm_X_pca : Option (List (List ℚ))
  varm_PCs : Option (List (List ℚ))
  uns_pca : Option PCAUns
deriving DecidableEq

/-- What a successful call of the external routine `sc.tl.pca` stores on the
object it is given: the embedding `obsm['X_pca']`, the loadings `varm['PCs']`
and the diagnostics `uns['pca']`. -/
structure PCAResult where
  embedding : List (List ℚ)
  loadings : List (List ℚ)
  info : PCAUns
deriving DecidableEq

/-- The external decomposition routine, abstracted: from the (possibly
gene-restricted) data matrix and the parameters `n_comps`, `svd_solver`,
`random_state` it either returns a result or raises (message string). -/
def PCADelegate : Type :=
  List (List ℚ) → Nat → String → Int → Except String PCAResult

/-- Column restriction of one row by a boolean mask: keeps the entries whose
mask bit is `true` (NumPy boolean-mask column selection). -/
def maskRow (mask : List Bool) (row : List ℚ) : List ℚ :=
  ((row.zip mask).filter (fun p => p.2)).map (fun p => p.1)

/-- `np.zeros((r, c))` as a list of `r` zero rows of length `c`. -/
def zeros (r c : Nat) : List (List ℚ) :=
  List.replicate r (List.replicate c 0)

/-- NumPy boolean-mask row assignment `base[mask] = sub`: rows of `base` at
`true` positions of `mask` are replaced by the successive rows of `sub`; the
other rows are kept.  (NumPy would raise when the lengths disagree; the
theorems below always carry the matching-length hypotheses.) -/
def setRowsByMask : List (List ℚ) → List Bool → List (List ℚ) → List (List ℚ)
  | [], _, _ => []
  | b :: bs, [], _ => b :: bs
  | b :: bs, false :: ms, sub => b :: setRowsByMask bs ms sub
  | _ :: bs, true :: ms, s :: sub => s :: setRowsByMask bs ms sub
  | b :: bs, true :: ms, [] => b :: setRowsByMask bs ms []

/-- The matrix handed to the delegate: `adata_use` is the column-restricted
view `adata[:, adata.var.highly_variable]` when `use_highly_variable` is set
and the flag column is present, and `adata` itself otherwise
(`dimensionality.py` lines 153–157). -/
def pcaInput (adata : AnnData) (use_highly_variable : Bool) : List (List ℚ) :=
  match use_highly_variable, adata.highly_variable with
  | true, some mask => adata.X.map (maskRow mask)
  | _, _ => adata.X

/-- The body of `run_pca` acting on the working handle `adata` (the held
handle in in-place mode, its copy otherwise): run the delegate on the
possibly restricted matrix, then either scatter the loadings back into a
zero-initialised full-size matrix at the flagged rows (lines 168–175) or,
without restriction, store the delegate results directly. -/
def run_pca_core (delegate : PCADelegate) (adata : AnnData) (n_comps : Nat)
    (use_highly_variable : Bool) (svd_solver : String) (random_state : Int) :
    Except String AnnData :=
  match delegate (pcaInput adata use_highly_variable) n_comps svd_solver random_state with
  | .error e => .error e
  | .ok r =>
    match use_highly_variable, adata.highly_variable with
    | true, some mask =>
        .ok { adata with
          obsm_X_pca := some r.embedding,
          varm_PCs := some (setRowsByMask (zeros adata.n_vars n_comps) mask r.loadings),
          uns_pca := some r.info }
    | _, _ =>
        .ok { adata with
          obsm_X_pca := some r.embedding,
          varm_PCs := some r.loadings,
          uns_pca := some r.info }

/-- The Python return value of `run_pca`
(`Optional[Union[AnnData, Tuple[AnnData, Dict]]]`). -/
inductive RunPcaRet where
  | noRet : RunPcaRet
  | infoRet : PCAUns → RunPcaRet
  | adataRet : AnnData → RunPcaRet
  | adataInfoRet : AnnData → PCAUns → RunPcaRet
deriving DecidableEq

/-- The dataset handle carried by a `run_pca` return value, when any. -/
def RunPcaRet.carrier : RunPcaRet → Option AnnData
  | .noRet => none
  | .infoRet _ => none
  | .adataRet a => some a
  | .adataInfoRet a _ => some a

/-- `DimensionalityReduction.run_pca` (lines 147–185).  `self` is the held
`self.adata`.  The result pairs the state of `self.adata` after the call with
the Python return value: in-place mode rebinds `self.adata` to the updated
handle and returns the info dictionary when asked (lines 178–181); copy mode
leaves `self.adata` untouched and returns the new handle, with the info
dictionary when asked (lines 182–185). -/
def run_pca (delegate : PCADelegate) (self : AnnData) (n_comps : Nat)
    (use_highly_variable : Bool) (svd_solver : String) (random_state : Int)
    (return_info : Bool) (inplace : Bool) :
    Except String (AnnData × RunPcaRet) :=
  match run_pca_core delegate self n_comps use_highly_variable svd_solver random_state with
  | .error e => .error e
  | .ok adata =>
    if inplace then
      match return_info, adata.uns_pca with
      | true, some info => .ok (adata, RunPcaRet.infoRet info)
      | _, _ => .ok (adata, RunPcaRet.noRet)
    else
      match return_info, adata.uns_pca with
      | true, some info => .ok (self, RunPcaRet.adataInfoRet adata info)
      | _, _ => .ok (self, RunPcaRet.adataRet adata)

/-- `np.cumsum`, with a running accumulator. -/
def cumsumFrom (acc : ℚ) : List ℚ → List ℚ
  | [] => []
  | x :: xs => (acc + x) :: cumsumFrom (acc + x) xs

/-- `np.cumsum(variance_ratio)` (line 245). -/
def cumsum (l : List ℚ) : List ℚ :=
  cumsumFrom 0 l

/-- The invalid-state error of `plot_pca_variance`: the `ValueError` raised
with the message that PCA has not been performed yet or the variance-ratio
information is missing (lines 240–241). -/
inductive PlotError where
  | pcaNotPerformed : PlotError
deriving DecidableEq

/-- Where the finished figure goes. -/
inductive PlotSink where
  | displayed : PlotSink
  | saved : String → PlotSink
deriving DecidableEq

/-- Observable outcome of `plot_pca_variance`: the clamped component count,
the two plotted series (per-component and cumulative percentages), the
y-axis log flag, the figure destination, and whether the figure handle is
returned. -/
structure PlotOutput where
  pcsPlotted : Nat
  varSeries : List ℚ
  cumSeries : List ℚ
  logScale : Bool
  sink : PlotSink
  returnedFig : Bool
deriving DecidableEq

/-- Modelled from the spec: the source file ends mid-statement inside
`plot_pca_variance` (line 268 breaks off in the second call to
`set_xticks`), so the figure-finalisation tail is missing from `src/`.
Per the spec, the figure is saved to the caller-given path when one is
supplied and displayed otherwise, and the figure handle is returned when
`return_fig` is set. -/
def finalizePlot (save_path : Option String) (return_fig : Bool) :
    PlotSink × Bool :=
  (match save_path with
   | some p => PlotSink.saved p
   | none => PlotSink.displayed,
   return_fig)

/-- `DimensionalityReduction.plot_pca_variance` (lines 187–268 plus the
spec-modelled `finalizePlot` tail): raise the invalid-state error when
`uns['pca']` or its `variance_ratio` entry is absent; otherwise clamp
`n_pcs` to the number of available components (line 248) and plot the
percentage series `variance_ratio[:n_pcs] * 100` and
`cumsum[:n_pcs] * 100` (lines 254 and 264). -/
def plot_pca_variance (self : AnnData) (n_pcs : Nat) (log : Bool)
    (threshold : Option ℚ) (save_path : Option String) (return_fig : Bool) :
    Except PlotError PlotOutput :=
  match self.uns_pca with
  | none => .error PlotError.pcaNotPerformed
  | some u =>
    match u.variance_ratio with
    | none => .error PlotError.pcaNotPerformed
    | some vr =>
      let variance_cumsum := cumsum vr
      let npcs := min n_pcs vr.length
      let fin := finalizePlot save_path return_fig
      .ok { pcsPlotted := npcs
            varSeries := (vr.take npcs).map (fun x => x * 100)
            cumSeries := (variance_cumsum.take npcs).map (fun x => x * 100)
            logScale := log
            sink := fin.1
            returnedFig := fin.2 }

/-- A matrix row that is identically zero (an all-zero loadings row). -/
def isZeroRow (row : List ℚ) : Bool :=
  row.all (fun x => decide (x = 0))

/-! ## Helper lemmas -/

theorem length_setRowsByMask :
    ∀ (base : List (List ℚ)) (mask : List Bool) (sub : List (List ℚ)),
    (setRowsByMask base mask sub).length = base.length := by
  intro base
  induction base with
  | nil => intro mask sub; cases mask <;> simp [setRowsByMask]
  | cons b bs ih =>
    intro mask sub
    cases mask with
    | nil => simp [setRowsByMask]
    | cons m ms =>
      cases m with
      | false => simp [setRowsByMask, ih]
      | true =>
        cases sub with
        | nil => simp [setRowsByMask, ih]
        | cons s sub => simp [setRowsByMask, ih]

theorem mem_setRowsByMask :
    ∀ (base : List (List ℚ)) (mask : List Bool) (sub : List (List ℚ))
      (row : List ℚ), row ∈ setRowsByMask base mask sub →
    row ∈ base ∨ row ∈ sub := by
  intro base
  induction base with
  | nil => intro mask sub row h; cases mask <;> simp [setRowsByMask] at h
  | cons b bs ih =>
    intro mask sub row h
    cases mask with
    | nil =>
      simp only [setRowsByMask] at h
      exact Or.inl h
    | cons m ms =>
      cases m with
      | false =>
        simp only [setRowsByMask, List.mem_cons] at h
        rcases h with h | h
        · exact Or.inl (by simp [h])
        · rcases ih ms sub row h with h | h
          · exact Or.inl (List.mem_cons_of_mem _ h)
          · exact Or.inr h
      | true =>
        cases sub with
        | nil =>
          simp only [setRowsByMask, List.mem_cons] at h
          rcases h with h | h
          · exact Or.inl (by simp [h])
          · rcases ih ms [] row h with h | h
            · exact Or.inl (List.mem_cons_of_mem _ h)
            · exact Or.inr h
        | cons s sub =>
          simp only [setRowsByMask, List.mem_cons] at h
          rcases h with h | h
          · exact Or.inr (by simp [h])
          · rcases ih ms sub row h with h | h
            · exact Or.inl (List.mem_cons_of_mem _ h)
            · exact Or.inr (List.mem_cons_of_mem _ h)

theorem getD_setRowsByMask_false :
    ∀ (base : List (List ℚ)) (mask : List Bool) (sub : List (List ℚ)) (i : Nat),
    i < mask.length → mask.length = base.length →
    mask.getD i true = false →
    (setRowsByMask base mask sub).getD i [] = base.getD i [] := by
  intro base
  induction base with
  | nil =>
    intro mask sub i hi hlen _
    rw [hlen] at hi; exact absurd hi (Nat.not_lt_zero i)
  | cons b bs ih =>
    intro mask sub i hi hlen hm
    cases mask with
    | nil => exact absurd hi (Nat.not_lt_zero i)
    | cons m ms =>
      cases m with
      | false =>
        cases i with
        | zero => simp [setRowsByMask]
        | succ j =>
          simp only [setRowsByMask, List.getD_cons_succ]
          exact ih ms sub j (Nat.lt_of_succ_lt_succ hi)
            (Nat.succ_injective hlen) hm
      | true =>
        cases i with
        | zero => simp at hm
        | succ j =>
          cases sub with
          | nil =>
            simp only [setRowsByMask, List.getD_cons_succ]
            exact ih ms [] j (Nat.lt_of_succ_lt_succ hi)
              (Nat.succ_injective hlen) hm
          | cons s sub =>
            simp only [setRowsByMask, List.getD_cons_succ]
            exact ih ms sub j (Nat.lt_of_succ_lt_succ hi)
              (Nat.succ_injective hlen) hm

theorem getD_setRowsByMask_true :
    ∀ (base : List (List ℚ)) (mask : List Bool) (sub : List (List ℚ)) (i : Nat),
    i < mask.length → mask.length = base.length →
    sub.length = mask.count true →
    mask.getD i true = true →
    (setRowsByMask base mask sub).getD i [] ∈ sub := by
  intro base
  induction base with
  | nil =>
    intro mask sub i hi hlen _ _
    rw [hlen] at hi; exact absurd hi (Nat.not_lt_zero i)
  | cons b bs ih =>
    intro mask sub i hi hlen hsub hm
    cases mask with
    | nil => exact absurd hi (Nat.not_lt_zero i)
    | cons m ms =>
      cases m with
      | false =>
        cases i with
        | zero => simp at hm
        | succ j =>
          simp only [setRowsByMask, List.getD_cons_succ]
          refine ih ms sub j (Nat.lt_of_succ_lt_succ hi)
            (Nat.succ_injective hlen) ?_ hm
          simpa using hsub
      | true =>
        cases sub with
        | nil =>
          simp [List.count_cons] at hsub
        | cons s sub =>
          cases i with
          | zero => simp [setRowsByMask]
          | succ j =>
            simp only [setRowsByMask, List.getD_cons_succ]
            refine List.mem_cons_of_mem _
              (ih ms sub j (Nat.lt_of_succ_lt_succ hi)
                (Nat.succ_injective hlen) ?_ hm)
            have := hsub
            simp [List.count_cons] at this
            simpa using this

theorem countP_setRowsByMask :
    ∀ (mask : List Bool) (base sub : List (List ℚ)),
    mask.length = base.length →
    sub.length = mask.count true →
    (∀ row ∈ base, isZeroRow row = true) →
    (∀ row ∈ sub, isZeroRow row = false) →
    (setRowsByMask base mask sub).countP (fun row => isZeroRow row) =
      mask.count false := by
  intro mask
  induction mask with
  | nil =>
    intro base sub hlen _ _ _
    cases base with
    | nil => simp [setRowsByMask]
    | cons b bs => simp at hlen
  | cons m ms ih =>
    intro base sub hlen hsub hbase hnz
    cases base with
    | nil => simp at hlen
    | cons b bs =>
      cases m with
      | false =>
        have hb : isZeroRow b = true := hbase b (List.mem_cons_self b bs)
        simp only [setRowsByMask, List.countP_cons, hb]
        rw [ih bs sub (Nat.succ_injective hlen)
          (by simpa using hsub)
          (fun row hr => hbase row (List.mem_cons_of_mem _ hr)) hnz]
        simp [List.count_cons]
      | true =>
        cases sub with
        | nil => simp [List.count_cons] at hsub
        | cons s sub =>
          have hs : isZeroRow s = false := hnz s (List.mem_cons_self s sub)
          simp only [setRowsByMask, List.countP_cons, hs]
          rw [ih bs sub (Nat.succ_injective hlen)
            (by simp [List.count_cons] at hsub; simpa using hsub)
            (fun row hr => hbase row (List.mem_cons_of_mem _ hr))
            (fun row hr => hnz row (List.mem_cons_of_mem _ hr))]
          simp [List.count_cons]

theorem length_cumsumFrom :
    ∀ (l : List ℚ) (acc : ℚ), (cumsumFrom acc l).length = l.length := by
  intro l
  induction l with
  | nil => intro acc; simp [cumsumFrom]
  | cons x xs ih => intro acc; simp [cumsumFrom, ih]

theorem length_cumsum (l : List ℚ) : (cumsum l).length = l.length :=
  length_cumsumFrom l 0

theorem le_of_mem_cumsumFrom :
    ∀ (l : List ℚ) (acc y : ℚ), (∀ x ∈ l, 0 ≤ x) →
    y ∈ cumsumFrom acc l → acc ≤ y := by
  intro l
  induction l with
  | nil => intro acc y _ hy; simp [cumsumFrom] at hy
  | cons x xs ih =>
    intro acc y hpos hy
    simp only [cumsumFrom, List.mem_cons] at hy
    have hx : 0 ≤ x := hpos x (List.mem_cons_self x xs)
    rcases hy with hy | hy
    · rw [hy]; linarith
    · have := ih (acc + x) y
        (fun z hz => hpos z (List.mem_cons_of_mem _ hz)) hy
      linarith

theorem mem_cumsumFrom_le_sum :
    ∀ (l : List ℚ) (acc y : ℚ), (∀ x ∈ l, 0 ≤ x) →
    y ∈ cumsumFrom acc l → y ≤ acc + l.sum := by
  intro l
  induction l with
  | nil => intro acc y _ hy; simp [cumsumFrom] at hy
  | cons x xs ih =>
    intro acc y hpos hy
    simp only [cumsumFrom, List.mem_cons] at hy
    rcases hy with hy | hy
    · have : 0 ≤ xs.sum := List.sum_nonneg
        (fun z hz => hpos z (List.mem_cons_of_mem _ hz))
      rw [hy]; simp [List.sum_cons]; linarith
    · have := ih (acc + x) y
        (fun z hz => hpos z (List.mem_cons_of_mem _ hz)) hy
      simp [List.sum_cons] at this ⊢; linarith

theorem sorted_cumsumFrom :
    ∀ (l : List ℚ) (acc : ℚ), (∀ x ∈ l, 0 ≤ x) →
    (cumsumFrom acc l).Sorted (fun a b => a ≤ b) := by
  intro l
  induction l with
  | nil => intro acc _; simp [cumsumFrom]
  | cons x xs ih =>
    intro acc hpos
    simp only [cumsumFrom, List.sorted_cons]
    constructor
    · intro b hb
      exact le_of_mem_cumsumFrom xs (acc + x) b
        (fun z hz => hpos z (List.mem_cons_of_mem _ hz)) hb
    · exact ih (acc + x) (fun z hz => hpos z (List.mem_cons_of_mem _ hz))

/-- On success, `run_pca_core` fills all three result slots and leaves the
data matrix, shape fields and the flag column unchanged. -/
theorem run_pca_core_ok_fields
    (delegate : PCADelegate) (a a' : AnnData) (n_comps : Nat)
    (uhv : Bool) (svd_solver : String) (random_state : Int)
    (h : run_pca_core delegate a n_comps uhv svd_solver random_state = .ok a') :
    a'.obsm_X_pca.isSome ∧ a'.varm_PCs.isSome ∧ a'.uns_pca.isSome ∧
    a'.X = a.X ∧ a'.highly_variable = a.highly_variable ∧
    a'.n_obs = a.n_obs ∧ a'.n_vars = a.n_vars := by
  unfold run_pca_core at h
  split at h
  · exact absurd h (by simp)
  · split at h <;> (cases h; simp)

theorem run_pca_core_ok_fields_witness :
    ∃ a', run_pca_core (fun _ _ _ _ => .ok ⟨[[1]], [[1]], ⟨some [1]⟩⟩)
      ⟨[[1]], 1, 1, none, none, none, none⟩ 1 false "arpack" 42 = .ok a' ∧
      (a'.obsm_X_pca.isSome ∧ a'.varm_PCs.isSome ∧ a'.uns_pca.isSome ∧
       a'.X = [[1]] ∧ a'.highly_variable = none ∧ a'.n_obs = 1 ∧ a'.n_vars = 1) := by
  refine ⟨⟨[[1]], 1, 1, none, some [[1]], some [[1]], some ⟨some [1]⟩⟩, rfl, ?_⟩
  exact run_pca_core_ok_fields (fun _ _ _ _ => .ok ⟨[[1]], [[1]], ⟨some [1]⟩⟩)
    ⟨[[1]], 1, 1, none, none, none, none⟩
    ⟨[[1]], 1, 1, none, some [[1]], some [[1]], some ⟨some [1]⟩⟩ 1 false "arpack" 42 rfl

/-! ## Claim theorems: plotting -/

/-- C5: `plot_pca_variance` raises the invalid-state `ValueError` if and only
if the variance-ratio diagnostics are absent from the dataset handle:
`'pca'` missing from `uns`, or `'variance_ratio'` missing from `uns['pca']`
(lines 240–241). -/
theorem plot_pca_variance_error_iff (self : AnnData) (n_pcs : Nat) (log : Bool)
    (threshold : Option ℚ) (save_path : Option String) (return_fig : Bool) :
    plot_pca_variance self n_pcs log threshold save_path return_fig =
      .error PlotError.pcaNotPerformed ↔
    (self.uns_pca = none ∨
      ∃ u, self.uns_pca = some u ∧ u.variance_ratio = none) := by
  cases h : self.uns_pca with
  | none => simp [plot_pca_variance, h]
  | some u =>
    cases hv : u.variance_ratio with
    | none => simp [plot_pca_variance, h, hv]
    | some vr => simp [plot_pca_variance, h, hv]

/-- C6: on a handle carrying variance diagnostics, `plot_pca_variance`
succeeds, sends the figure to the save path when one is given and to the
display otherwise, and returns the figure handle exactly when `return_fig`
is set (figure finalisation per the spec-modelled `finalizePlot`). -/
theorem plot_pca_variance_sink_ok (self : AnnData) (u : PCAUns) (vr : List ℚ)
    (n_pcs : Nat) (log : Bool) (threshold : Option ℚ)
    (save_path : Option String) (return_fig : Bool)
    (h : self.uns_pca = some u) (hv : u.variance_ratio = some vr) :
    ∃ out, plot_pca_variance self n_pcs log threshold save_path return_fig =
        .ok out ∧
      out.sink = (match save_path with
        | some p => PlotSink.saved p
        | none => PlotSink.displayed) ∧
      out.returnedFig = return_fig := by
  obtain ⟨X, no, nv, hvg, ob, vm, un⟩ := self
  obtain ⟨uvr⟩ := u
  simp only at h hv
  subst h; subst hv
  exact ⟨_, rfl, by cases save_path <;> rfl, rfl⟩

theorem plot_pca_variance_sink_ok_witness :
    ((⟨[], 0, 0, none, none, none, some ⟨some [(1:ℚ)/2, 1/4]⟩⟩ : AnnData).uns_pca
        = some ⟨some [(1:ℚ)/2, 1/4]⟩) ∧
    (∃ out, plot_pca_variance
        ⟨[], 0, 0, none, none, none, some ⟨some [(1:ℚ)/2, 1/4]⟩⟩
        5 false none (some "pca_variance.png") true = .ok out ∧
      out.sink = PlotSink.saved "pca_variance.png" ∧
      out.returnedFig = true) := by
  refine ⟨rfl, ?_⟩
  exact plot_pca_variance_sink_ok
    ⟨[], 0, 0, none, none, none, some ⟨some [(1:ℚ)/2, 1/4]⟩⟩
    ⟨some [(1:ℚ)/2, 1/4]⟩ [(1:ℚ)/2, 1/4]
    5 false none (some "pca_variance.png") true rfl rfl

/-- C10: when the requested component count exceeds the number of available
variance ratios, `plot_pca_variance` silently clamps to the available count
(line 248): it succeeds, plots exactly `m` components, and both plotted
slices stay within the bounds of the variance-ratio and cumulative-sum
arrays. -/
theorem plot_pca_variance_clamps (self : AnnData) (u : PCAUns) (vr : List ℚ)
    (n_pcs : Nat) (log : Bool) (threshold : Option ℚ)
    (save_path : Option String) (return_fig : Bool)
    (h : self.uns_pca = some u) (hv : u.variance_ratio = some vr)
    (hgt : vr.length < n_pcs) :
    ∃ out, plot_pca_variance self n_pcs log threshold save_path return_fig =
        .ok out ∧
      out.pcsPlotted = vr.length ∧
      out.varSeries.length = vr.length ∧
      out.cumSeries.length = vr.length ∧
      out.varSeries.length ≤ vr.length ∧
      out.cumSeries.length ≤ (cumsum vr).length := by
  obtain ⟨X, no, nv, hvg, ob, vm, un⟩ := self
  obtain ⟨uvr⟩ := u
  simp only at h hv
  subst h; subst hv
  have hmin : min n_pcs vr.length = vr.length :=
    Nat.min_eq_right (Nat.le_of_lt hgt)
  refine ⟨_, rfl, ?_, ?_, ?_, ?_, ?_⟩
  · exact hmin
  · simp [hmin]
  · simp [hmin, length_cumsum]
  · simp [hmin]
  · simp [hmin, length_cumsum]

theorem plot_pca_variance_clamps_witness :
    ((⟨[], 0, 0, none, none, none, some ⟨some [(1:ℚ)/2, 1/4]⟩⟩ : AnnData).uns_pca
        = some ⟨some [(1:ℚ)/2, 1/4]⟩) ∧
    ([(1:ℚ)/2, 1/4].length < 50) ∧
    (∃ out, plot_pca_variance
        ⟨[], 0, 0, none, none, none, some ⟨some [(1:ℚ)/2, 1/4]⟩⟩
        50 false none none false = .ok out ∧
      out.pcsPlotted = [(1:ℚ)/2, 1/4].length ∧
      out.varSeries.length = [(1:ℚ)/2, 1/4].length ∧
      out.cumSeries.length = [(1:ℚ)/2, 1/4].length ∧
      out.varSeries.length ≤ [(1:ℚ)/2, 1/4].length ∧
      out.cumSeries.length ≤ (cumsum [(1:ℚ)/2, 1/4]).length) := by
  refine ⟨rfl, by decide, ?_⟩
  exact plot_pca_variance_clamps
    ⟨[], 0, 0, none, none, none, some ⟨some [(1:ℚ)/2, 1/4]⟩⟩
    ⟨some [(1:ℚ)/2, 1/4]⟩ [(1:ℚ)/2, 1/4]
    50 false none none false rfl rfl (by decide)

/-- C9: if the variance-ratio sequence on the handle is element-wise
non-negative, sorted non-increasing, and sums to at most 1 (the contract of
the delegated decomposition), then the series `plot_pca_variance` plots are
well behaved: the per-component percentages are non-negative and
non-increasing, and the cumulative percentages (from `np.cumsum`, line 245)
are non-decreasing and bounded by 100. -/
theorem plot_pca_variance_series_monotone (self : AnnData) (u : PCAUns)
    (vr : List ℚ) (n_pcs : Nat) (log : Bool) (threshold : Option ℚ)
    (save_path : Option String) (return_fig : Bool)
    (h : self.uns_pca = some u) (hv : u.variance_ratio = some vr)
    (hpos : ∀ x ∈ vr, 0 ≤ x)
    (hsorted : vr.Sorted (fun a b => b ≤ a))
    (hsum : vr.sum ≤ 1) :
    ∃ out, plot_pca_variance self n_pcs log threshold save_path return_fig =
        .ok out ∧
      (∀ y ∈ out.varSeries, 0 ≤ y) ∧
      out.varSeries.Sorted (fun a b => b ≤ a) ∧
      out.cumSeries.Sorted (fun a b => a ≤ b) ∧
      (∀ y ∈ out.cumSeries, y ≤ 100) := by
  obtain ⟨X, no, nv, hvg, ob, vm, un⟩ := self
  obtain ⟨uvr⟩ := u
  simp only at h hv
  subst h; subst hv
  refine ⟨_, rfl, ?_, ?_, ?_, ?_⟩
  · intro y hy
    simp only [List.mem_map] at hy
    obtain ⟨x, hx, rfl⟩ := hy
    have : x ∈ vr := List.take_subset _ _ hx
    have := hpos x this
    positivity
  · refine List.Pairwise.map _ ?_
      (hsorted.sublist (List.take_sublist _ _))
    intro a b hab
    nlinarith
  · refine List.Pairwise.map _ ?_
      ((sorted_cumsumFrom vr 0 hpos).sublist (List.take_sublist _ _))
    intro a b hab
    nlinarith
  · intro y hy
    simp only [List.mem_map] at hy
    obtain ⟨z, hz, rfl⟩ := hy
    have hzmem : z ∈ cumsum vr := List.take_subset _ _ hz
    have := mem_cumsumFrom_le_sum vr 0 z hpos hzmem
    nlinarith

theorem plot_pca_variance_series_monotone_witness :
    ((⟨[], 0, 0, none, none, none, some ⟨some [(1:ℚ), 0]⟩⟩ : AnnData).uns_pca
        = some ⟨some [(1:ℚ), 0]⟩) ∧
    (∀ x ∈ [(1:ℚ), 0], 0 ≤ x) ∧
    ([(1:ℚ), 0].Sorted (fun a b => b ≤ a)) ∧
    ([(1:ℚ), 0].sum ≤ 1) ∧
    (∃ out, plot_pca_variance
        ⟨[], 0, 0, none, none, none, some ⟨some [(1:ℚ), 0]⟩⟩
        5 false none none false = .ok out ∧
      (∀ y ∈ out.varSeries, 0 ≤ y) ∧
      out.varSeries.Sorted (fun a b => b ≤ a) ∧
      out.cumSeries.Sorted (fun a b => a ≤ b) ∧
      (∀ y ∈ out.cumSeries, y ≤ 100)) := by
  refine ⟨rfl, by decide, by decide, by simp, ?_⟩
  exact plot_pca_variance_series_monotone
    ⟨[], 0, 0, none, none, none, some ⟨some [(1:ℚ), 0]⟩⟩
    ⟨some [(1:ℚ), 0]⟩ [(1:ℚ), 0]
    5 false none none false rfl rfl (by decide) (by decide) (by simp)

/-! ## Claim theorems: run_pca -/

/-- C3: on a handle whose per-gene table has no `highly_variable` column,
`run_pca` with `use_highly_variable = True` raises no error and returns a
result identical to `use_highly_variable = False` under the same remaining
parameters: the restriction is silently skipped (lines 153–157). -/
theorem run_pca_no_flag_equiv (delegate : PCADelegate) (self : AnnData)
    (n_comps : Nat) (svd_solver : String) (random_state : Int)
    (return_info : Bool) (inplace : Bool)
    (h : self.highly_variable = none) :
    run_pca delegate self n_comps true svd_solver random_state
      return_info inplace =
    run_pca delegate self n_comps false svd_solver random_state
      return_info inplace := by
  obtain ⟨X, no, nv, hvg, ob, vm, un⟩ := self
  simp only at h
  subst h
  rfl

theorem run_pca_no_flag_equiv_witness :
    ((⟨[[1]], 1, 1, none, none, none, none⟩ : AnnData).highly_variable
        = none) ∧
    (run_pca (fun _ _ _ _ => .ok ⟨[[1]], [[1]], ⟨some [1]⟩⟩)
        ⟨[[1]], 1, 1, none, none, none, none⟩ 1 true "arpack" 42 false true =
     run_pca (fun _ _ _ _ => .ok ⟨[[1]], [[1]], ⟨some [1]⟩⟩)
        ⟨[[1]], 1, 1, none, none, none, none⟩ 1 false "arpack" 42 false true) :=
  ⟨rfl, run_pca_no_flag_equiv (fun _ _ _ _ => .ok ⟨[[1]], [[1]], ⟨some [1]⟩⟩)
    ⟨[[1]], 1, 1, none, none, none, none⟩ 1 "arpack" 42 false true rfl⟩

/-- C7: `run_pca` raises nothing locally; any error of the external
decomposition routine on the matrix handed to it (the restricted matrix under
an applied gene restriction, the full one otherwise) propagates unchanged to
the caller, with no recovery or substitution (lines 159–166). -/
theorem run_pca_propagates_delegate_error (delegate : PCADelegate)
    (self : AnnData) (n_comps : Nat) (use_highly_variable : Bool)
    (svd_solver : String) (random_state : Int)
    (return_info : Bool) (inplace : Bool) (e : String)
    (h : delegate (pcaInput self use_highly_variable) n_comps svd_solver
      random_state = .error e) :
    run_pca delegate self n_comps use_highly_variable svd_solver random_state
      return_info inplace = .error e := by
  unfold run_pca run_pca_core
  rw [h]

theorem run_pca_propagates_delegate_error_witness :
    ((fun _ _ _ _ => .error "invalid solver" : PCADelegate)
        (pcaInput ⟨[[1]], 1, 1, none, none, none, none⟩ false) 1 "badsolver" 42
        = .error "invalid solver") ∧
    (run_pca (fun _ _ _ _ => .error "invalid solver")
        ⟨[[1]], 1, 1, none, none, none, none⟩ 1 false "badsolver" 42 false true
        = .error "invalid solver") :=
  ⟨rfl, run_pca_propagates_delegate_error
    (fun _ _ _ _ => .error "invalid solver")
    ⟨[[1]], 1, 1, none, none, none, none⟩ 1 false "badsolver" 42 false true
    "invalid solver" rfl⟩

theorem length_pcaInput (adata : AnnData) (uhv : Bool) :
    (pcaInput adata uhv).length = adata.X.length := by
  cases uhv with
  | false => cases h : adata.highly_variable <;> simp [pcaInput]
  | true => cases h : adata.highly_variable <;> simp [pcaInput, h]

theorem run_pca_core_embedding (delegate : PCADelegate) (a a' : AnnData)
    (k : Nat) (uhv : Bool) (svd_solver : String) (random_state : Int)
    (hdel : ∀ M r, delegate M k svd_solver random_state = .ok r →
      r.embedding.length = M.length ∧ ∀ row ∈ r.embedding, row.length = k)
    (h : run_pca_core delegate a k uhv svd_solver random_state = .ok a') :
    ∃ E, a'.obsm_X_pca = some E ∧ E.length = a.X.length ∧
      ∀ row ∈ E, row.length = k := by
  unfold run_pca_core at h
  split at h
  · exact absurd h (by simp)
  · rename_i r heq
    obtain ⟨hlen, hrows⟩ := hdel _ r heq
    rw [length_pcaInput] at hlen
    split at h <;> (cases h; exact ⟨r.embedding, rfl, hlen, hrows⟩)

/-- C2: after a successful in-place `run_pca` with `n_comps = k`, the
embedding stored in `obsm['X_pca']` has row count equal to the full cell
count and exactly `k` columns, whether or not gene restriction was applied:
the embedding is copied over directly and restriction drops only gene
columns, never cell rows (lines 153–170). -/
theorem run_pca_embedding_shape (delegate : PCADelegate) (self : AnnData)
    (k : Nat) (use_highly_variable : Bool) (svd_solver : String)
    (random_state : Int) (return_info : Bool)
    (a' : AnnData) (ret : RunPcaRet)
    (hobs : self.X.length = self.n_obs)
    (hdel : ∀ M r, delegate M k svd_solver random_state = .ok r →
      r.embedding.length = M.length ∧ ∀ row ∈ r.embedding, row.length = k)
    (h : run_pca delegate self k use_highly_variable svd_solver random_state
      return_info true = .ok (a', ret)) :
    ∃ E, a'.obsm_X_pca = some E ∧ E.length = self.n_obs ∧
      ∀ row ∈ E, row.length = k := by
  unfold run_pca at h
  split at h
  · exact absurd h (by simp)
  · rename_i adata heq
    have hcore := run_pca_core_embedding delegate self adata k
      use_highly_variable svd_solver random_state hdel heq
    rw [hobs] at hcore
    rw [if_pos rfl] at h
    split at h <;> (cases h; exact hcore)

theorem run_pca_embedding_shape_witness :
    ((⟨[[1],[2]], 2, 1, none, none, none, none⟩ : AnnData).X.length
        = (⟨[[1],[2]], 2, 1, none, none, none, none⟩ : AnnData).n_obs) ∧
    (run_pca (fun M _ _ _ => .ok ⟨M.map (fun _ => [3]), [[7]], ⟨some [1]⟩⟩)
        ⟨[[1],[2]], 2, 1, none, none, none, none⟩ 1 false "arpack" 42 false true
      = .ok (⟨[[1],[2]], 2, 1, none, some [[3],[3]], some [[7]],
              some ⟨some [1]⟩⟩, RunPcaRet.noRet)) ∧
    (∃ E, (⟨[[1],[2]], 2, 1, none, some [[3],[3]], some [[7]],
            some ⟨some [1]⟩⟩ : AnnData).obsm_X_pca = some E ∧
      E.length = 2 ∧ ∀ row ∈ E, row.length = 1) := by
  refine ⟨rfl, rfl, ?_⟩
  exact run_pca_embedding_shape
    (fun M _ _ _ => .ok ⟨M.map (fun _ => [3]), [[7]], ⟨some [1]⟩⟩)
    ⟨[[1],[2]], 2, 1, none, none, none, none⟩ 1 false "arpack" 42 false
    ⟨[[1],[2]], 2, 1, none, some [[3],[3]], some [[7]], some ⟨some [1]⟩⟩
    RunPcaRet.noRet rfl
    (fun M r h => by
      cases h
      refine ⟨by simp, ?_⟩
      intro row hr
      rw [List.mem_map] at hr
      obtain ⟨x, _, rfl⟩ := hr
      rfl)
    rfl

theorem getD_zeros (r c i : Nat) (h : i < r) :
    (zeros r c).getD i [] = List.replicate c 0 := by
  simp [zeros, List.getD_eq_getElem?_getD, List.getElem?_replicate, h]

theorem isZeroRow_replicate (c : Nat) :
    isZeroRow (List.replicate c 0) = true := by
  simp [isZeroRow, List.all_eq_true]

/-- C1: in-place `run_pca` with gene restriction applied (the boolean flag
column present): assuming the delegate returns one loadings row of width
`n_comps` per flagged gene, none of them identically zero, the loadings
matrix stored in `varm['PCs']` has row count equal to the full gene count,
`n_comps` columns, and its all-zero rows sit exactly at the genes whose flag
is `False` — zeros-scatter per lines 169–175. -/
theorem run_pca_loadings_scatter (delegate : PCADelegate) (self : AnnData)
    (mask : List Bool) (k : Nat) (svd_solver : String) (random_state : Int)
    (return_info : Bool) (r : PCAResult) (a' : AnnData) (ret : RunPcaRet)
    (hmask : self.highly_variable = some mask)
    (hnv : mask.length = self.n_vars)
    (hdel : delegate (pcaInput self true) k svd_solver random_state = .ok r)
    (hlen : r.loadings.length = mask.count true)
    (hcols : ∀ row ∈ r.loadings, row.length = k)
    (hnz : ∀ row ∈ r.loadings, isZeroRow row = false)
    (h : run_pca delegate self k true svd_solver random_state
      return_info true = .ok (a', ret)) :
    ∃ L, a'.varm_PCs = some L ∧ L.length = self.n_vars ∧
      (∀ row ∈ L, row.length = k) ∧
      (∀ i, i < mask.length →
        (isZeroRow (L.getD i []) = true ↔ mask.getD i true = false)) ∧
      L.countP (fun row => isZeroRow row) = mask.count false := by
  have hbase : (zeros self.n_vars k).length = self.n_vars := by
    simp [zeros]
  have hml : mask.length = (zeros self.n_vars k).length := by
    rw [hbase]; exact hnv
  refine ⟨setRowsByMask (zeros self.n_vars k) mask r.loadings, ?_, ?_, ?_, ?_, ?_⟩
  · -- the stored varm['PCs'] is exactly the scattered matrix
    unfold run_pca run_pca_core at h
    rw [hdel, hmask] at h
    dsimp only at h
    rw [if_pos rfl] at h
    split at h <;> (cases h; rfl)
  · rw [length_setRowsByMask, hbase]
  · intro row hr
    rcases mem_setRowsByMask _ _ _ row hr with hz | hs
    · have := List.eq_of_mem_replicate hz
      subst this
      simp
    · exact hcols row hs
  · intro i hi
    cases hm : mask.getD i true with
    | false =>
      rw [getD_setRowsByMask_false _ _ _ i hi hml hm,
        getD_zeros _ _ i (by rw [← hnv]; exact hi)]
      simp [isZeroRow_replicate, hm]
    | true =>
      have hmem := getD_setRowsByMask_true _ _ _ i hi hml hlen hm
      rw [hnz _ hmem]
      simp [hm]
  · refine countP_setRowsByMask mask _ _ hml hlen ?_ hnz
    intro row hrow
    have := List.eq_of_mem_replicate hrow
    subst this
    exact isZeroRow_replicate k

theorem run_pca_loadings_scatter_witness :
    ((⟨[[1,2,3]], 1, 3, some [true,false,true], none, none, none⟩ :
        AnnData).highly_variable = some [true,false,true]) ∧
    ([true,false,true].length =
      (⟨[[1,2,3]], 1, 3, some [true,false,true], none, none, none⟩ :
        AnnData).n_vars) ∧
    ((fun _ _ _ _ => .ok ⟨[[5]], [[1],[2]], ⟨some [1]⟩⟩ : PCADelegate)
        (pcaInput ⟨[[1,2,3]], 1, 3, some [true,false,true], none, none, none⟩
          true) 1 "arpack" 42
      = .ok ⟨[[5]], [[1],[2]], ⟨some [1]⟩⟩) ∧
    ([[(1:ℚ)],[2]].length = [true,false,true].count true) ∧
    (∀ row ∈ [[(1:ℚ)],[2]], row.length = 1) ∧
    (∀ row ∈ [[(1:ℚ)],[2]], isZeroRow row = false) ∧
    (run_pca (fun _ _ _ _ => .ok ⟨[[5]], [[1],[2]], ⟨some [1]⟩⟩)
        ⟨[[1,2,3]], 1, 3, some [true,false,true], none, none, none⟩
        1 true "arpack" 42 false true
      = .ok (⟨[[1,2,3]], 1, 3, some [true,false,true], some [[5]],
              some [[1],[0],[2]], some ⟨some [1]⟩⟩, RunPcaRet.noRet)) ∧
    (∃ L, (⟨[[1,2,3]], 1, 3, some [true,false,true], some [[5]],
            some [[1],[0],[2]], some ⟨some [1]⟩⟩ : AnnData).varm_PCs = some L ∧
      L.length = 3 ∧
      (∀ row ∈ L, row.length = 1) ∧
      (∀ i, i < [true,false,true].length →
        (isZeroRow (L.getD i []) = true ↔
          [true,false,true].getD i true = false)) ∧
      L.countP (fun row => isZeroRow row) = [true,false,true].count false) := by
  refine ⟨rfl, rfl, rfl, by decide, by decide, by decide, rfl, ?_⟩
  exact run_pca_loadings_scatter
    (fun _ _ _ _ => .ok ⟨[[5]], [[1],[2]], ⟨some [1]⟩⟩)
    ⟨[[1,2,3]], 1, 3, some [true,false,true], none, none, none⟩
    [true,false,true] 1 "arpack" 42 false
    ⟨[[5]], [[1],[2]], ⟨some [1]⟩⟩
    ⟨[[1,2,3]], 1, 3, some [true,false,true], some [[5]],
      some [[1],[0],[2]], some ⟨some [1]⟩⟩ RunPcaRet.noRet
    rfl rfl rfl (by decide) (by decide) (by decide) rfl

/-- C4: frame effect of the `inplace` flag on a successful run: in-place mode
leaves the held handle itself carrying the three new result slots
(`obsm['X_pca']`, `varm['PCs']`, `uns['pca']`); copy mode leaves the held
handle untouched (the first component of the result, the state of
`self.adata`, is still the original) and returns a distinct handle carrying
the new slots (lines 149–150 and 177–185). -/
theorem run_pca_inplace_vs_copy (delegate : PCADelegate) (self : AnnData)
    (n_comps : Nat) (use_highly_variable : Bool) (svd_solver : String)
    (random_state : Int) (return_info : Bool) (adata' : AnnData)
    (h : run_pca_core delegate self n_comps use_highly_variable svd_solver
      random_state = .ok adata') :
    adata'.obsm_X_pca.isSome ∧ adata'.varm_PCs.isSome ∧
      adata'.uns_pca.isSome ∧
    (∃ ret, run_pca delegate self n_comps use_highly_variable svd_solver
        random_state return_info true = .ok (adata', ret)) ∧
    (∃ ret, run_pca delegate self n_comps use_highly_variable svd_solver
        random_state return_info false = .ok (self, ret) ∧
      ret.carrier = some adata') := by
  obtain ⟨h1, h2, h3, -, -, -, -⟩ :=
    run_pca_core_ok_fields delegate self adata' n_comps use_highly_variable
      svd_solver random_state h
  rcases hu : adata'.uns_pca with - | info
  · rw [hu] at h3; exact absurd h3 (by simp)
  · refine ⟨h1, h2, rfl, ?_, ?_⟩
    · unfold run_pca
      rw [h]
      dsimp only
      rw [if_pos rfl, hu]
      cases return_info with
      | true => exact ⟨_, rfl⟩
      | false => exact ⟨_, rfl⟩
    · unfold run_pca
      rw [h]
      dsimp only
      rw [if_neg (by simp), hu]
      cases return_info with
      | true => exact ⟨RunPcaRet.adataInfoRet adata' info, rfl, rfl⟩
      | false => exact ⟨RunPcaRet.adataRet adata', rfl, rfl⟩

theorem run_pca_inplace_vs_copy_witness :
    (run_pca_core (fun _ _ _ _ => .ok ⟨[[2]], [[3]], ⟨some [1]⟩⟩)
        ⟨[[1]], 1, 1, none, none, none, none⟩ 1 false "arpack" 42
      = .ok ⟨[[1]], 1, 1, none, some [[2]], some [[3]], some ⟨some [1]⟩⟩) ∧
    ((⟨[[1]], 1, 1, none, some [[2]], some [[3]],
        some ⟨some [1]⟩⟩ : AnnData).obsm_X_pca.isSome ∧
     (⟨[[1]], 1, 1, none, some [[2]], some [[3]],
        some ⟨some [1]⟩⟩ : AnnData).varm_PCs.isSome ∧
     (⟨[[1]], 1, 1, none, some [[2]], some [[3]],
        some ⟨some [1]⟩⟩ : AnnData).uns_pca.isSome ∧
     (∃ ret, run_pca (fun _ _ _ _ => .ok ⟨[[2]], [[3]], ⟨some [1]⟩⟩)
        ⟨[[1]], 1, 1, none, none, none, none⟩ 1 false "arpack" 42 true true
        = .ok (⟨[[1]], 1, 1, none, some [[2]], some [[3]],
                some ⟨some [1]⟩⟩, ret)) ∧
     (∃ ret, run_pca (fun _ _ _ _ => .ok ⟨[[2]], [[3]], ⟨some [1]⟩⟩)
        ⟨[[1]], 1, 1, none, none, none, none⟩ 1 false "arpack" 42 true false
        = .ok (⟨[[1]], 1, 1, none, none, none, none⟩, ret) ∧
       ret.carrier = some ⟨[[1]], 1, 1, none, some [[2]], some [[3]],
         some ⟨some [1]⟩⟩)) := by
  refine ⟨rfl, ?_⟩
  exact run_pca_inplace_vs_copy (fun _ _ _ _ => .ok ⟨[[2]], [[3]], ⟨some [1]⟩⟩)
    ⟨[[1]], 1, 1, none, none, none, none⟩ 1 false "arpack" 42 true
    ⟨[[1]], 1, 1, none, some [[2]], some [[3]], some ⟨some [1]⟩⟩ rfl

theorem run_pca_core_idem (delegate : PCADelegate) (a a' : AnnData) (k : Nat)
    (uhv : Bool) (svd_solver : String) (random_state : Int)
    (h : run_pca_core delegate a k uhv svd_solver random_state = .ok a') :
    run_pca_core delegate a' k uhv svd_solver random_state = .ok a' := by
  obtain ⟨X, no, nv, hvg, ob, vm, un⟩ := a
  cases heq : delegate (pcaInput ⟨X, no, nv, hvg, ob, vm, un⟩ uhv) k
      svd_solver random_state with
  | error e =>
    unfold run_pca_core at h
    rw [heq] at h
    exact absurd h (by simp)
  | ok r =>
    unfold run_pca_core at h
    rw [heq] at h
    cases uhv with
    | true =>
      cases hvg with
      | some mask =>
        dsimp only at h
        cases h
        have heq2 : delegate (pcaInput ⟨X, no, nv, some mask,
            some r.embedding,
            some (setRowsByMask (zeros nv k) mask r.loadings),
            some r.info⟩ true) k svd_solver random_state = .ok r := heq
        unfold run_pca_core
        rw [heq2]
      | none =>
        dsimp only at h
        cases h
        have heq2 : delegate (pcaInput ⟨X, no, nv, none, some r.embedding,
            some r.loadings, some r.info⟩ true) k svd_solver
            random_state = .ok r := heq
        unfold run_pca_core
        rw [heq2]
    | false =>
      dsimp only at h
      cases h
      have heq2 : delegate (pcaInput ⟨X, no, nv, hvg, some r.embedding,
          some r.loadings, some r.info⟩ false) k svd_solver
          random_state = .ok r := heq
      unfold run_pca_core
      rw [heq2]

/-- C8: in-place `run_pca` is idempotent on the dataset handle for fixed
parameters (the abstract delegate is a function of the data and parameters,
so a fixed seed is deterministic): a second identical in-place call leaves
the handle in the same state and returns the same value — it merely
overwrites the result slots with the same contents (lines 159–181). -/
theorem run_pca_inplace_idempotent (delegate : PCADelegate) (self : AnnData)
    (k : Nat) (use_highly_variable : Bool) (svd_solver : String)
    (random_state : Int) (return_info : Bool) (a1 : AnnData) (ret : RunPcaRet)
    (h : run_pca delegate self k use_highly_variable svd_solver random_state
      return_info true = .ok (a1, ret)) :
    run_pca delegate a1 k use_highly_variable svd_solver random_state
      return_info true = .ok (a1, ret) := by
  unfold run_pca at h ⊢
  cases hc : run_pca_core delegate self k use_highly_variable svd_solver
      random_state with
  | error e =>
    rw [hc] at h
    exact absurd h (by simp)
  | ok adata =>
    rw [hc] at h
    dsimp only at h
    rw [if_pos rfl] at h
    split at h
    · rename_i hinfo hu
      cases h
      rw [run_pca_core_idem delegate self a1 k use_highly_variable
        svd_solver random_state hc]
      dsimp only
      rw [if_pos rfl, hu]
    · rename_i ri rdup xdup hmiss
      cases h
      rw [run_pca_core_idem delegate self a1 k use_highly_variable
        svd_solver random_state hc]
      dsimp only
      rw [if_pos rfl]
      cases hri : ri with
      | false => rfl
      | true =>
        cases hu : a1.uns_pca with
        | none => rfl
        | some info => exact (hmiss info hri hu).elim

theorem run_pca_inplace_idempotent_witness :
    (run_pca (fun _ _ _ _ => .ok ⟨[[2]], [[3]], ⟨some [1]⟩⟩)
        ⟨[[1]], 1, 1, none, none, none, none⟩ 1 false "arpack" 42 false true
      = .ok (⟨[[1]], 1, 1, none, some [[2]], some [[3]],
              some ⟨some [1]⟩⟩, RunPcaRet.noRet)) ∧
    (run_pca (fun _ _ _ _ => .ok ⟨[[2]], [[3]], ⟨some [1]⟩⟩)
        ⟨[[1]], 1, 1, none, some [[2]], some [[3]], some ⟨some [1]⟩⟩
        1 false "arpack" 42 false true
      = .ok (⟨[[1]], 1, 1, none, some [[2]], some [[3]],
              some ⟨some [1]⟩⟩, RunPcaRet.noRet)) :=
  ⟨rfl, run_pca_inplace_idempotent
    (fun _ _ _ _ => .ok ⟨[[2]], [[3]], ⟨some [1]⟩⟩)
    ⟨[[1]], 1, 1, none, none, none, none⟩ 1 false "arpack" 42 false
    ⟨[[1]], 1, 1, none, some [[2]], some [[3]], some ⟨some [1]⟩⟩
    RunPcaRet.noRet rfl⟩
